import Mathlib

/-!
Verification of the EdgePilot admission-controlled local scheduler
(`edgepilot/scheduler/policies.py`, `edgepilot/scheduler/core.py`),
shallowly embedded in Lean 4.

Modelling conventions:
* Python dicts read with `.get(key, default)` become structures with
  `Option` fields; the read becomes `Option.getD`.
* The ambient readings the code takes — `datetime.now().time()` inside
  `in_quiet_hours` and `psutil.virtual_memory().total` inside
  `evaluate` — become explicit parameters (`now`, `vm_total`).
* Python floats become rationals (`Rat`); the spec and presets only use
  integer-valued thresholds, so no rounding behaviour is lost.
* Python `int(a / b)` with nonnegative ints truncates toward zero;
  it is modelled by `Int.tdiv`.
-/

namespace EdgePilot

/-- Wall-clock time of day at minute granularity, the shape produced by
`parse_time` on an `HH:MM` string (`datetime.time(hour, minute)`). -/
structure HM where
  hour : Nat
  minute : Nat
deriving DecidableEq, Repr

/-- Python `time.__lt__`: lexicographic on `(hour, minute)`. -/
def HM.lt (a b : HM) : Bool :=
  Nat.blt a.hour b.hour || (a.hour == b.hour && Nat.blt a.minute b.minute)

/-- Python `time.__le__`: lexicographic on `(hour, minute)`. -/
def HM.le (a b : HM) : Bool :=
  Nat.blt a.hour b.hour || (a.hour == b.hour && Nat.ble a.minute b.minute)

/-- The `quiet_hours` rule value: a dict with keys `start`, `end`,
`allow_if_plugged` (`end` is a Lean keyword, hence `end_`). -/
structure QuietRule where
  start : Option HM
  end_ : Option HM
  allow_if_plugged : Option Bool
deriving DecidableEq, Repr

/-- `in_quiet_hours(quiet)` from `policies.py`; `now` is the ambient
`datetime.now().time()` reading.  `none` covers both an absent and an
empty (falsy) `quiet` dict, for which the function returns `False`. -/
def in_quiet_hours (quiet : Option QuietRule) (now : HM) : Bool :=
  match quiet with
  | none => false
  | some q =>
    let start := q.start.getD ⟨22, 0⟩
    let e := q.end_.getD ⟨7, 0⟩
    if HM.lt start e then HM.le start now && HM.lt now e
    else HM.le start now || HM.lt now e

/-- A policy rule set (`rules` dict).  Numeric thresholds the code wraps
in `int(...)` are typed `Int`; `gpu_max_util_pct` is wrapped in
`float(...)`, hence `Rat`. -/
structure Rules where
  cpu_max_pct : Option Int
  mem_reserve_mb : Option Int
  battery_min_pct : Option Int
  gpu_max_util_pct : Option Rat
  quiet_hours : Option QuietRule
deriving DecidableEq, Repr

/-- The `gpu` sub-dict of a metrics snapshot. -/
structure Gpu where
  available : Bool
  util_pct : Option Rat
  mem_total_bytes : Option Int
  mem_used_bytes : Option Int
deriving DecidableEq, Repr

/-- `snapshot.get("gpu", {})` when the key is absent: every lookup on
the empty dict is falsy / takes its default. -/
def Gpu.empty : Gpu := ⟨false, none, none, none⟩

/-- The `power` sub-dict of a metrics snapshot. -/
structure Power where
  plugged : Option Bool
  battery_pct : Option Rat
deriving DecidableEq, Repr

/-- `snapshot.get("power", {})` when the key is absent. -/
def Power.empty : Power := ⟨none, none⟩

/-- The metrics snapshot fields `evaluate` reads. -/
structure Snapshot where
  cpu_total_pct : Option Rat
  mem_used_bytes : Option Int
  gpu : Option Gpu
  power : Option Power
deriving DecidableEq, Repr

/-- The task-requirements dict (`_task_as_dict` shape, read by
`evaluate` with `.get` defaults). -/
structure TaskReq where
  requires_gpu : Bool
  min_vram_mb : Option Int
  max_cpu_pct : Option Int
  max_mem_mb : Option Int
deriving DecidableEq, Repr

/-- The human-readable denial reasons appended by `evaluate`, one
constructor per f-string, carrying the same interpolated data (the
rendering of the text itself is abstracted). -/
inductive Reason where
  | cpuExceeds (cpu : Rat) (limit : Int)
  | memBelow (free_mb : Int) (reserve : Int)
  | batteryBelow (batt_pct : Rat) (minPct : Int)
  | quietHours
  | gpuMissing
  | gpuUtilExceeds (util : Rat) (limit : Rat)
  | gpuVramBelow (free_mb : Int) (minMb : Int)
deriving DecidableEq, Repr

/-- The `reasons` list built by `evaluate` in `policies.py`.  The code
appends to an accumulator check by check; appending in program order
equals this concatenation of per-check lists.  `now` models the ambient
clock read inside `in_quiet_hours`, `vm_total` the ambient
`psutil.virtual_memory().total` read.  Python `x or 0` on an optional
number equals `Option.getD x 0`. -/
def evalReasons (snapshot : Snapshot) (task : TaskReq) (rules : Rules)
    (now : HM) (vm_total : Int) : List Reason :=
  let cpu : Rat := snapshot.cpu_total_pct.getD 0
  let mem_used : Int := snapshot.mem_used_bytes.getD 0
  let mem_free_mb : Int := Int.tdiv (vm_total - mem_used) (1024 * 1024)
  let gpu : Gpu := snapshot.gpu.getD Gpu.empty
  let power : Power := snapshot.power.getD Power.empty
  let cpu_max : Int := min (rules.cpu_max_pct.getD 100) (task.max_cpu_pct.getD 100)
  let mem_reserve : Int := max (rules.mem_reserve_mb.getD 0) (task.max_mem_mb.getD 0)
  let battery_min : Int := rules.battery_min_pct.getD 0
  let plugged : Bool := power.plugged.getD false
  let batt_pct : Rat := power.battery_pct.getD 0
  (if cpu > (cpu_max : Rat) then [Reason.cpuExceeds cpu cpu_max] else []) ++
  (if mem_free_mb < mem_reserve then [Reason.memBelow mem_free_mb mem_reserve] else []) ++
  (if battery_min ≠ 0 ∧ plugged = false ∧ batt_pct ≠ 0 ∧ batt_pct < (battery_min : Rat)
    then [Reason.batteryBelow batt_pct battery_min] else []) ++
  (match rules.quiet_hours with
   | none => []
   | some q =>
     if in_quiet_hours (some q) now = true ∧ ¬(plugged = true ∧ q.allow_if_plugged.getD true = true)
     then [Reason.quietHours] else []) ++
  (if task.requires_gpu then
    if gpu.available = false then [Reason.gpuMissing]
    else
      let gpu_util : Rat := gpu.util_pct.getD 0
      let gpu_limit : Rat := rules.gpu_max_util_pct.getD 90
      let min_vram : Int := task.min_vram_mb.getD 0
      let total_bytes : Int := gpu.mem_total_bytes.getD 0
      let used_bytes : Int := gpu.mem_used_bytes.getD 0
      let free_mb : Int :=
        if total_bytes ≠ 0 then Int.tdiv (total_bytes - used_bytes) (1024 * 1024) else 0
      (if gpu_util > gpu_limit then [Reason.gpuUtilExceeds gpu_util gpu_limit] else []) ++
      (if min_vram ≠ 0 ∧ free_mb < min_vram then [Reason.gpuVramBelow free_mb min_vram] else [])
   else [])

/-- `evaluate(snapshot, task, rules)` from `policies.py`:
`can = len(reasons) == 0`, returning `(can, reasons)`. -/
def evaluate (snapshot : Snapshot) (task : TaskReq) (rules : Rules)
    (now : HM) (vm_total : Int) : Bool × List Reason :=
  let reasons := evalReasons snapshot task rules now vm_total
  (reasons.isEmpty, reasons)

/-- The `Policy` dataclass of `policies.py` (distinct from the ORM
`Policy` row, modelled below as `PolicyRow`). -/
structure PresetPolicy where
  name : String
  rules : Rules
deriving DecidableEq, Repr

/-- The built-in `PRESETS` table of `policies.py`. -/
def PRESETS : List (String × PresetPolicy) :=
  [("performance",
    ⟨"performance",
     { battery_min_pct := some 10, cpu_max_pct := some 95, mem_reserve_mb := some 512,
       gpu_max_util_pct := some 95,
       quiet_hours := some ⟨some ⟨0, 0⟩, some ⟨0, 0⟩, some true⟩ }⟩),
   ("balanced_defaults",
    ⟨"balanced_defaults",
     { battery_min_pct := some 30, cpu_max_pct := some 85, mem_reserve_mb := some 2048,
       gpu_max_util_pct := some 80,
       quiet_hours := some ⟨some ⟨22, 0⟩, some ⟨7, 0⟩, some true⟩ }⟩),
   ("sip-battery",
    ⟨"sip-battery",
     { battery_min_pct := some 50, cpu_max_pct := some 70, mem_reserve_mb := some 4096,
       gpu_max_util_pct := some 60,
       quiet_hours := some ⟨some ⟨21, 0⟩, some ⟨8, 0⟩, some false⟩ }⟩)]

/-! ## Scheduler core (`edgepilot/scheduler/core.py`)

Durable task rows, audit events, the in-memory priority queue and the
live-handle table, with the public operations `enqueue`, `cancel`,
`policy_set` and the tick loop (`_tick` / `_maybe_start_next`).

External effects are explicit parameters: process poll results come
from a `poll : Nat → Option Int` map (task id to exit code once the
child has exited), aliveness/termination outcomes of `Popen` handles
are boolean parameters, and the metrics snapshot, active rules, clock
and total memory are carried in a `TickEnv`.  The opaque OS artifacts
of a handle (`pid`, `log_path`) and free-text event notes, which no
claim mentions, are not modelled. -/

/-- Task states (`Task.state` column: `queued|running|done|canceled|failed`). -/
inductive TState where
  | queued
  | running
  | done
  | failed
  | canceled
deriving DecidableEq, Repr

/-- A durable `Task` row, restricted to the columns the scheduler logic
reads or writes.  `created_ts` is `created_at.timestamp()` (used as the
heap tiebreaker), `started_at`/`ended_at` are abstract tick times. -/
structure DTask where
  id : Nat
  name : String
  command : String
  est_runtime_sec : Option Int
  requires_gpu : Bool
  min_vram_mb : Int
  max_cpu_pct : Int
  max_mem_mb : Int
  priority : Int
  deadline_ts : Option Int
  state : TState
  created_ts : Int
  started_at : Option Nat
  ended_at : Option Nat
  return_code : Option Int
deriving DecidableEq, Repr

/-- Audit event kinds (`ScheduleEvent.kind`). -/
inductive EventKind where
  | enqueued
  | started
  | finished
  | failed
  | canceled
  | deferred
deriving DecidableEq, Repr

/-- An append-only `ScheduleEvent` row (free-text note abstracted). -/
structure Event where
  kind : EventKind
  task_id : Nat
deriving DecidableEq, Repr

/-- The in-memory `QueueItem` dataclass: ordered by
`(priority, ts)`; `task_id` carries `compare=False`. -/
structure QueueItem where
  priority : Int
  ts : Int
  task_id : Nat
deriving DecidableEq, Repr

/-- The `(priority, ts)` order used by the heap (`@dataclass(order=True)`
with `task_id` excluded from comparison). -/
def QueueItem.keyLt (a b : QueueItem) : Bool :=
  a.priority < b.priority || (a.priority == b.priority && a.ts < b.ts)

/-- `heapq.heappop`: remove a minimum element by `(priority, ts)`.  The
heap is modelled as the multiset of its items; among equal keys the
earliest-pushed one is taken (`heapq` leaves that tie unspecified, and
no claim depends on it). -/
def popMin : List QueueItem → Option (QueueItem × List QueueItem)
  | [] => none
  | x :: xs =>
    match popMin xs with
    | none => some (x, [])
    | some (m, rest) => if QueueItem.keyLt m x then some (m, x :: rest) else some (x, xs)

/-- The scheduler's state: durable store (`tasks`, `events`, policy rows
live separately), the in-memory heap `queue`, and the live-handle table
`handles` keyed by task id (`self._handles`, in insertion order). -/
structure SchedState where
  tasks : List DTask
  events : List Event
  queue : List QueueItem
  handles : List Nat
deriving DecidableEq, Repr

/-- `session.get(Task, task_id)`: primary-key lookup. -/
def lookupTask (ts : List DTask) (tid : Nat) : Option DTask :=
  ts.find? (fun t => t.id == tid)

/-- An ORM row mutation `t.<field> = v` persisted on commit: update the
row(s) with the given primary key. -/
def updTask (ts : List DTask) (tid : Nat) (f : DTask → DTask) : List DTask :=
  ts.map (fun t => if t.id == tid then f t else t)

/-- `Scheduler._push_queue(t)`:
`heappush(queue, QueueItem(t.priority, t.created_at.timestamp(), t.id))`.
On the multiset model a push is an append. -/
def push_queue (q : List QueueItem) (t : DTask) : List QueueItem :=
  q ++ [⟨t.priority, t.created_ts, t.id⟩]

/-- The keyword payload of `Scheduler.enqueue`.  Absent keys are `none`. -/
structure EnqueuePayload where
  name : Option String
  command : String
  est_runtime_sec : Option Int
  requires_gpu : Option Bool
  min_vram_mb : Option Int
  max_cpu_pct : Option Int
  max_mem_mb : Option Int
  priority : Option Int
  deadline_ts : Option Int
deriving DecidableEq, Repr

/-- Python `int(payload.get(k, d) or d)`: a missing or falsy (zero)
value falls back to the default. -/
def orDefault (v : Option Int) (d : Int) : Int :=
  match v with
  | none => d
  | some x => if x == 0 then d else x

/-- `Scheduler.enqueue(**payload)`: builds the `Task` row in state
`queued`, persists it, records an `enqueued` event and pushes it onto
the heap.  `newId` models the generated primary key and `created_ts`
the `created_at` default.  There is no validation branch. -/
def enqueue (st : SchedState) (p : EnqueuePayload) (newId : Nat) (created_ts : Int) :
    SchedState × DTask :=
  let t : DTask :=
    { id := newId
      name := p.name.getD "task"
      command := p.command
      est_runtime_sec := p.est_runtime_sec
      requires_gpu := p.requires_gpu.getD false
      min_vram_mb := orDefault p.min_vram_mb 0
      max_cpu_pct := orDefault p.max_cpu_pct 100
      max_mem_mb := orDefault p.max_mem_mb 0
      priority := orDefault p.priority 5
      deadline_ts := p.deadline_ts
      state := TState.queued
      created_ts := created_ts
      started_at := none
      ended_at := none
      return_code := none }
  ({ st with
      tasks := st.tasks ++ [t]
      events := st.events ++ [⟨EventKind.enqueued, newId⟩]
      queue := push_queue st.queue t }, t)

/-- `Scheduler.cancel(task_id)`.  `procAlive` models
`handle.popen.poll() is None` for the tracked handle, `termRaises`
whether `handle.popen.terminate()` raised.  Note that a running task's
handle is NOT removed from `self._handles`. -/
def cancel (st : SchedState) (tid : Nat) (procAlive : Bool) (termRaises : Bool) :
    SchedState × Bool :=
  match lookupTask st.tasks tid with
  | none => (st, false)
  | some t =>
    if t.state = TState.queued then
      ({ st with
          tasks := updTask st.tasks tid (fun u => { u with state := TState.canceled })
          events := st.events ++ [⟨EventKind.canceled, tid⟩] }, true)
    else if t.state = TState.running then
      let ok := st.handles.contains tid && procAlive && !termRaises
      ({ st with
          tasks := updTask st.tasks tid (fun u => { u with state := TState.canceled })
          events := st.events ++ [⟨EventKind.canceled, tid⟩] }, ok)
    else (st, false)

/-- A durable `Policy` ORM row (the autoincrement id, which nothing
reads, is dropped; `json_rules` stores the rule set, with the
`json.dumps`/`json.loads` round trip abstracted to the identity). -/
structure PolicyRow where
  name : String
  json_rules : Rules
  active : Bool
deriving DecidableEq, Repr

/-- The upsert half of `policy_set`: find the row by name
(`one_or_none`; names carry a unique constraint) and update it, or
append a fresh active row. -/
def upsertActive : List PolicyRow → String → Rules → List PolicyRow
  | [], name, rules => [⟨name, rules, true⟩]
  | p :: ps, name, rules =>
    if p.name == name then { p with json_rules := rules, active := true } :: ps
    else p :: upsertActive ps name rules

/-- `Scheduler.policy_set(name, rules)`: deactivate every row
(`UPDATE policies SET active = false`), then upsert the named row as
active; returns the name. -/
def policy_set (ps : List PolicyRow) (name : String) (rules : Rules) :
    List PolicyRow × String :=
  (upsertActive (ps.map (fun p => { p with active := false })) name rules, name)

/-- The per-tick environment: the external readings one `_tick` makes.
`poll tid` is the child process's exit code once it has exited
(`popen.poll()`), `none` while it runs; `time` is the tick's clock for
`started_at`/`ended_at`. -/
structure TickEnv where
  snapshot : Snapshot
  rules : Rules
  now : HM
  vm_total : Int
  poll : Nat → Option Int
  max_parallel : Nat
  time : Nat

/-- `_task_as_dict(t)`: the requirements dict handed to `evaluate`. -/
def task_as_dict (t : DTask) : TaskReq :=
  { requires_gpu := t.requires_gpu
    min_vram_mb := some t.min_vram_mb
    max_cpu_pct := some t.max_cpu_pct
    max_mem_mb := some t.max_mem_mb }

/-- `Scheduler._maybe_start_next()`: pop the top heap item, reload the
task, discard it if missing or no longer `queued`; otherwise evaluate
admission, and either defer (priority bump, re-push, `deferred` event)
or start it (state `running`, handle tracked, `started` event).
Returns the started task, `none` otherwise — the caller cannot tell a
discard from a deferral. -/
def maybe_start_next (st : SchedState) (env : TickEnv) : SchedState × Option Nat :=
  match popMin st.queue with
  | none => (st, none)
  | some (item, rest) =>
    match lookupTask st.tasks item.task_id with
    | none => ({ st with queue := rest }, none)
    | some t =>
      if t.state ≠ TState.queued then ({ st with queue := rest }, none)
      else
        let r := evaluate env.snapshot (task_as_dict t) env.rules env.now env.vm_total
        if r.1 = false then
          let t' : DTask := { t with priority := t.priority + 1 }
          ({ st with
              tasks := updTask st.tasks t.id (fun u => { u with priority := u.priority + 1 })
              queue := push_queue rest t'
              events := st.events ++ [⟨EventKind.deferred, t.id⟩] }, none)
        else
          ({ st with
              tasks := updTask st.tasks t.id
                (fun u => { u with state := TState.running, started_at := some env.time })
              queue := rest
              handles := st.handles ++ [t.id]
              events := st.events ++ [⟨EventKind.started, t.id⟩] }, some t.id)

/-- The launch-phase `while` loop of `_tick`:
`while running < max_parallel and queue: if not maybe_start_next(): break`.
Every iteration that continues has started a task and popped exactly one
item without re-pushing, so the initial queue length bounds the
iteration count and serves as fuel. -/
def launchLoop (env : TickEnv) : Nat → SchedState → Nat → SchedState
  | 0, st, _ => st
  | fuel + 1, st, running =>
    if running < env.max_parallel ∧ st.queue ≠ [] then
      match maybe_start_next st env with
      | (st', none) => st'
      | (st', some _) => launchLoop env fuel st' (running + 1)
    else st

/-- One reap step for a tracked handle: if its process has exited,
update the task row — with no check of its current state — to
`done`/`failed`, record the event.  Mirrors the body of the
`for tid, handle in list(self._handles.items())` loop (the removal from
the table is applied afterwards, as in the code). -/
def reapStep (env : TickEnv) (st : SchedState) (tid : Nat) : SchedState :=
  match env.poll tid with
  | none => st
  | some rc =>
    match lookupTask st.tasks tid with
    | none => st
    | some _ =>
      { st with
          tasks := updTask st.tasks tid
            (fun u => { u with
                state := if rc == 0 then TState.done else TState.failed
                return_code := some rc
                ended_at := some env.time })
          events := st.events ++
            [⟨if rc == 0 then EventKind.finished else EventKind.failed, tid⟩] }

/-- The reap phase of `_tick`: poll every tracked handle, finalize the
exited ones, then drop them from the handle table (`to_remove`). -/
def reap (st : SchedState) (env : TickEnv) : SchedState :=
  let st' := st.handles.foldl (reapStep env) st
  { st' with handles := st.handles.filter (fun tid => (env.poll tid).isNone) }

/-- `Scheduler._tick()`: count live handles, run the launch phase up to
`max_parallel`, then reap. -/
def tick (st : SchedState) (env : TickEnv) : SchedState :=
  let running := (st.handles.filter (fun h => (env.poll h).isNone)).length
  let st1 := launchLoop env st.queue.length st running
  reap st1 env

/-! ## Helper lemmas -/

theorem HM.lt_iff (a b : HM) :
    HM.lt a b = true ↔ (a.hour < b.hour ∨ (a.hour = b.hour ∧ a.minute < b.minute)) := by
  simp [HM.lt, Nat.blt_eq]

theorem HM.le_iff (a b : HM) :
    HM.le a b = true ↔ (a.hour < b.hour ∨ (a.hour = b.hour ∧ a.minute ≤ b.minute)) := by
  simp [HM.le, Nat.blt_eq, Nat.ble_eq]

theorem HM.lt_asymm {a b : HM} (h : HM.lt a b = true) : HM.lt b a = false := by
  rw [HM.lt_iff] at h
  rw [Bool.eq_false_iff]
  intro hc
  rw [HM.lt_iff] at hc
  omega

theorem hm_le_or_lt (a b : HM) : (HM.le a b || HM.lt b a) = true := by
  rcases Nat.lt_trichotomy a.hour b.hour with h | h | h
  · rw [Bool.or_eq_true, HM.le_iff]
    exact Or.inl (Or.inl h)
  · rcases le_or_lt a.minute b.minute with hm | hm
    · rw [Bool.or_eq_true, HM.le_iff]
      exact Or.inl (Or.inr ⟨h, hm⟩)
    · rw [Bool.or_eq_true, HM.lt_iff]
      exact Or.inr (Or.inr ⟨h.symm, hm⟩)
  · rw [Bool.or_eq_true, HM.lt_iff]
    exact Or.inr (Or.inl h)

theorem HM.lt_irrefl (a : HM) : HM.lt a a = false := by
  rw [Bool.eq_false_iff]
  intro h
  rw [HM.lt_iff] at h
  omega

theorem mem_ite_singleton {α} (a b : α) (c : Prop) [Decidable c] :
    (a ∈ if c then [b] else []) ↔ (c ∧ a = b) := by
  split <;> simp_all

theorem lookupTask_id {ts : List DTask} {tid : Nat} {t : DTask}
    (h : lookupTask ts tid = some t) : t.id = tid := by
  have := List.find?_some h
  simpa using this

theorem lookupTask_updTask (ts : List DTask) (tid : Nat) (f : DTask → DTask)
    (hf : ∀ t, (f t).id = t.id) :
    lookupTask (updTask ts tid f) tid = (lookupTask ts tid).map f := by
  induction ts with
  | nil => rfl
  | cons t ts ih =>
    by_cases h : t.id = tid
    · simp [lookupTask, updTask, List.find?, h, hf]
    · have hb : (t.id == tid) = false := by simpa using h
      have hcons : updTask (t :: ts) tid f = t :: updTask ts tid f := by
        simp [updTask, hb, h]
      unfold lookupTask
      rw [hcons, List.find?_cons_of_neg _ (by simp [hb]),
        List.find?_cons_of_neg _ (by simp [hb])]
      exact ih

theorem upsertActive_filter (l : List PolicyRow) (name : String) (rules : Rules)
    (h : ∀ p ∈ l, p.active = false) :
    (upsertActive l name rules).filter (fun p => p.active) = [⟨name, rules, true⟩] := by
  induction l with
  | nil => simp [upsertActive]
  | cons p ps ih =>
    by_cases hp : p.name == name
    · have hn : p.name = name := by simpa using hp
      have hrest : ps.filter (fun p => p.active) = [] := by
        rw [List.filter_eq_nil_iff]
        intro q hq
        simp [h q (List.mem_cons_of_mem p hq)]
      simp [upsertActive, hp, List.filter, hrest, hn]
    · have hfalse : p.active = false := h p (List.mem_cons_self p ps)
      simp only [upsertActive, hp, if_false, Bool.false_eq_true]
      rw [List.filter_cons_of_neg (by simp [hfalse])]
      exact ih (fun q hq => h q (List.mem_cons_of_mem p hq))

/-! ## Claims -/

/-- Claim C6: the quiet-hours predicate is, for a window wrapping
midnight (`start > end`), active exactly when `now ≥ start` or
`now < end`, and for `start < end` active exactly when
`start ≤ now < end`; concretely, window 22:00–07:00 marks 23:30 and
03:00 as quiet and 12:00 as not, and window 09:00–17:00 marks 12:00 as
quiet and 20:00 as not. -/
theorem quiet_hours_window_semantics (start e now : HM) (ap : Option Bool) :
    (HM.lt e start = true →
      in_quiet_hours (some ⟨some start, some e, ap⟩) now = (HM.le start now || HM.lt now e)) ∧
    (HM.lt start e = true →
      in_quiet_hours (some ⟨some start, some e, ap⟩) now = (HM.le start now && HM.lt now e)) ∧
    in_quiet_hours (some ⟨some ⟨22, 0⟩, some ⟨7, 0⟩, ap⟩) ⟨23, 30⟩ = true ∧
    in_quiet_hours (some ⟨some ⟨22, 0⟩, some ⟨7, 0⟩, ap⟩) ⟨3, 0⟩ = true ∧
    in_quiet_hours (some ⟨some ⟨22, 0⟩, some ⟨7, 0⟩, ap⟩) ⟨12, 0⟩ = false ∧
    in_quiet_hours (some ⟨some ⟨9, 0⟩, some ⟨17, 0⟩, ap⟩) ⟨12, 0⟩ = true ∧
    in_quiet_hours (some ⟨some ⟨9, 0⟩, some ⟨17, 0⟩, ap⟩) ⟨20, 0⟩ = false := by
  refine ⟨?_, ?_, rfl, rfl, rfl, rfl, rfl⟩
  · intro h
    have hlt : HM.lt start e = false := HM.lt_asymm h
    simp [in_quiet_hours, hlt]
  · intro h
    simp [in_quiet_hours, h]

/-- Witness for C6: the wrap-around branch applied to the 22:00–07:00
window at 23:30. -/
theorem quiet_hours_window_semantics_witness :
    in_quiet_hours (some ⟨some ⟨22, 0⟩, some ⟨7, 0⟩, some true⟩) ⟨23, 30⟩ =
      (HM.le ⟨22, 0⟩ ⟨23, 30⟩ || HM.lt ⟨23, 30⟩ ⟨7, 0⟩) :=
  (quiet_hours_window_semantics ⟨22, 0⟩ ⟨7, 0⟩ ⟨23, 30⟩ (some true)).1 (by decide)

/-- Claim C10: a quiet-hours window whose start equals its end — as in
the built-in `performance` preset's `{"start": "00:00", "end": "00:00"}`
— is treated as covering the whole day: `in_quiet_hours` returns `true`
at every time of day. -/
theorem equal_endpoints_window_covers_whole_day (t now : HM) (ap : Option Bool) :
    in_quiet_hours (some ⟨some t, some t, ap⟩) now = true ∧
    ∃ pr ∈ PRESETS, pr.1 = "performance" ∧
      pr.2.rules.quiet_hours = some ⟨some ⟨0, 0⟩, some ⟨0, 0⟩, some true⟩ ∧
      in_quiet_hours pr.2.rules.quiet_hours now = true := by
  have hall : ∀ s : HM, in_quiet_hours (some ⟨some s, some s, ap⟩) now = true := by
    intro s
    simp only [in_quiet_hours, Option.getD_some, HM.lt_irrefl s, if_false, Bool.false_eq_true]
    exact hm_le_or_lt s now
  refine ⟨hall t, ⟨("performance",
    ⟨"performance",
     { battery_min_pct := some 10, cpu_max_pct := some 95, mem_reserve_mb := some 512,
       gpu_max_util_pct := some 95,
       quiet_hours := some ⟨some ⟨0, 0⟩, some ⟨0, 0⟩, some true⟩ }⟩), ?_, rfl, rfl, ?_⟩⟩
  · simp [PRESETS]
  · show in_quiet_hours (some ⟨some ⟨0, 0⟩, some ⟨0, 0⟩, some true⟩) now = true
    have h := hm_le_or_lt ⟨0, 0⟩ now
    simp only [in_quiet_hours, Option.getD_some, HM.lt_irrefl, if_false, Bool.false_eq_true]
    exact h

/-- Claim C9: after `policy_set(name, rules)`, exactly one policy row is
active, namely the one called `name` with the given rules; every
previously active row is now inactive.  This holds whether or not a row
named `name` existed before. -/
theorem policy_set_single_active (ps : List PolicyRow) (name : String) (rules : Rules) :
    ((policy_set ps name rules).1.filter (fun p => p.active)) = [⟨name, rules, true⟩] ∧
    (policy_set ps name rules).2 = name := by
  refine ⟨?_, rfl⟩
  apply upsertActive_filter
  intro p hp
  rw [List.mem_map] at hp
  obtain ⟨q, _, rfl⟩ := hp
  rfl

/-- Claim C5: `evaluate` runs every applicable check without
short-circuiting — each possible denial reason is in the returned list
exactly when its constraint is violated, independently of the others —
and `allowed` is `true` iff the reasons list is empty. -/
theorem evaluate_reports_every_violation (s : Snapshot) (t : TaskReq) (r : Rules)
    (now : HM) (tot : Int) :
    ((evaluate s t r now tot).1 = true ↔ (evaluate s t r now tot).2 = []) ∧
    (Reason.cpuExceeds (s.cpu_total_pct.getD 0)
        (min (r.cpu_max_pct.getD 100) (t.max_cpu_pct.getD 100)) ∈ (evaluate s t r now tot).2 ↔
      s.cpu_total_pct.getD 0 > ((min (r.cpu_max_pct.getD 100) (t.max_cpu_pct.getD 100) : Int) : Rat)) ∧
    (Reason.memBelow (Int.tdiv (tot - s.mem_used_bytes.getD 0) (1024 * 1024))
        (max (r.mem_reserve_mb.getD 0) (t.max_mem_mb.getD 0)) ∈ (evaluate s t r now tot).2 ↔
      Int.tdiv (tot - s.mem_used_bytes.getD 0) (1024 * 1024) <
        max (r.mem_reserve_mb.getD 0) (t.max_mem_mb.getD 0)) ∧
    (Reason.batteryBelow ((s.power.getD Power.empty).battery_pct.getD 0)
        (r.battery_min_pct.getD 0) ∈ (evaluate s t r now tot).2 ↔
      (r.battery_min_pct.getD 0 ≠ 0 ∧ (s.power.getD Power.empty).plugged.getD false = false ∧
        (s.power.getD Power.empty).battery_pct.getD 0 ≠ 0 ∧
        (s.power.getD Power.empty).battery_pct.getD 0 < ((r.battery_min_pct.getD 0 : Int) : Rat))) ∧
    (Reason.quietHours ∈ (evaluate s t r now tot).2 ↔
      (∃ q, r.quiet_hours = some q ∧ in_quiet_hours (some q) now = true ∧
        ¬((s.power.getD Power.empty).plugged.getD false = true ∧
          q.allow_if_plugged.getD true = true))) ∧
    (Reason.gpuMissing ∈ (evaluate s t r now tot).2 ↔
      (t.requires_gpu = true ∧ (s.gpu.getD Gpu.empty).available = false)) ∧
    (Reason.gpuUtilExceeds ((s.gpu.getD Gpu.empty).util_pct.getD 0)
        (r.gpu_max_util_pct.getD 90) ∈ (evaluate s t r now tot).2 ↔
      (t.requires_gpu = true ∧ (s.gpu.getD Gpu.empty).available = true ∧
        (s.gpu.getD Gpu.empty).util_pct.getD 0 > r.gpu_max_util_pct.getD 90)) ∧
    (Reason.gpuVramBelow
        (if (s.gpu.getD Gpu.empty).mem_total_bytes.getD 0 ≠ 0 then
          Int.tdiv ((s.gpu.getD Gpu.empty).mem_total_bytes.getD 0 -
            (s.gpu.getD Gpu.empty).mem_used_bytes.getD 0) (1024 * 1024)
         else 0)
        (t.min_vram_mb.getD 0) ∈ (evaluate s t r now tot).2 ↔
      (t.requires_gpu = true ∧ (s.gpu.getD Gpu.empty).available = true ∧
        t.min_vram_mb.getD 0 ≠ 0 ∧
        (if (s.gpu.getD Gpu.empty).mem_total_bytes.getD 0 ≠ 0 then
          Int.tdiv ((s.gpu.getD Gpu.empty).mem_total_bytes.getD 0 -
            (s.gpu.getD Gpu.empty).mem_used_bytes.getD 0) (1024 * 1024)
         else 0) < t.min_vram_mb.getD 0)) := by
  have hres : (evaluate s t r now tot).2 = evalReasons s t r now tot := rfl
  have h1 : (evaluate s t r now tot).1 = (evalReasons s t r now tot).isEmpty := rfl
  rw [h1, hres]
  unfold evalReasons
  refine ⟨List.isEmpty_iff, ?_, ?_, ?_, ?_, ?_, ?_, ?_⟩
  all_goals
    rcases hq : r.quiet_hours with _ | q <;>
    rcases hg : t.requires_gpu with _ | _ <;>
    rcases ha : (s.gpu.getD Gpu.empty).available with _ | _ <;>
    simp [hq, hg, ha, mem_ite_singleton, List.mem_append]

/-- The idle snapshot used to exhibit the clock dependence of
`evaluate`: nothing but the quiet-hours rule can fire. -/
def c4Snap : Snapshot := ⟨some 0, some 0, none, some ⟨some false, none⟩⟩

/-- A task with no resource demands of its own. -/
def c4Task : TaskReq := ⟨false, none, none, none⟩

/-- The `balanced_defaults` rule set (quiet hours 22:00–07:00,
`allow_if_plugged = true`). -/
def c4Rules : Rules :=
  { battery_min_pct := some 30, cpu_max_pct := some 85, mem_reserve_mb := some 2048,
    gpu_max_util_pct := some 80,
    quiet_hours := some ⟨some ⟨22, 0⟩, some ⟨7, 0⟩, some true⟩ }

/-- Counterexample to claim C4 as stated: `evaluate` is not a function
of the snapshot, task and rules alone — two calls with identical
snapshot, task-requirements and rule-set inputs differ because the code
also reads the ambient wall clock (`datetime.now()` inside
`in_quiet_hours`): at 23:30 the unplugged machine is denied for quiet
hours, at 12:00 it is allowed. -/
theorem evaluate_reads_ambient_clock :
    evaluate c4Snap c4Task c4Rules ⟨23, 30⟩ (2 ^ 33) = (false, [Reason.quietHours]) ∧
    evaluate c4Snap c4Task c4Rules ⟨12, 0⟩ (2 ^ 33) = (true, []) ∧
    evaluate c4Snap c4Task c4Rules ⟨23, 30⟩ (2 ^ 33) ≠
      evaluate c4Snap c4Task c4Rules ⟨12, 0⟩ (2 ^ 33) := by
  refine ⟨by decide, by decide, by decide⟩

/-- Claim C4 amended: `evaluate` is a pure, deterministic function of
the snapshot, the task requirements, the rule set AND the two ambient
readings it takes — the wall clock (used only through the quiet-hours
window test) and psutil's total-memory figure.  In particular two calls
with equal snapshot, task, rules and total memory whose clock readings
agree on quiet-hours membership return the same `(allowed, reasons)`
pair; as a function it has no side effects. -/
theorem evaluate_deterministic_given_ambient (s : Snapshot) (t : TaskReq) (r : Rules)
    (tot : Int) (now1 now2 : HM)
    (h : in_quiet_hours r.quiet_hours now1 = in_quiet_hours r.quiet_hours now2) :
    evaluate s t r now1 tot = evaluate s t r now2 tot := by
  rcases hq : r.quiet_hours with _ | q
  · unfold evaluate evalReasons
    rw [hq]
  · rw [hq] at h
    unfold evaluate evalReasons
    rw [hq]
    simp only [h]

/-- Witness for the amended C4: at 23:30 and 02:00 the 22:00–07:00
window is active in both readings, and the results agree. -/
theorem evaluate_deterministic_given_ambient_witness :
    evaluate c4Snap c4Task c4Rules ⟨23, 30⟩ (2 ^ 33) =
      evaluate c4Snap c4Task c4Rules ⟨2, 0⟩ (2 ^ 33) :=
  evaluate_deterministic_given_ambient c4Snap c4Task c4Rules (2 ^ 33) ⟨23, 30⟩ ⟨2, 0⟩
    (by decide)

/-- Claim C7: `cancel` on a queued task moves it to `canceled` and
returns `true`; on a running task it moves it to `canceled` regardless
of whether the terminate signal succeeded and returns whether the
signal succeeded; on an unknown or already-terminal task it returns
`false` and mutates nothing. -/
theorem cancel_state_machine (st : SchedState) (tid : Nat) (alive raises : Bool) :
    (lookupTask st.tasks tid = none → cancel st tid alive raises = (st, false)) ∧
    (∀ t, lookupTask st.tasks tid = some t →
      (t.state = TState.queued →
        cancel st tid alive raises =
          ({ st with
              tasks := updTask st.tasks tid (fun u => { u with state := TState.canceled })
              events := st.events ++ [⟨EventKind.canceled, tid⟩] }, true) ∧
        lookupTask (cancel st tid alive raises).1.tasks tid =
          some { t with state := TState.canceled }) ∧
      (t.state = TState.running →
        (cancel st tid alive raises).2 = (st.handles.contains tid && alive && !raises) ∧
        (cancel st tid alive raises).1 =
          { st with
              tasks := updTask st.tasks tid (fun u => { u with state := TState.canceled })
              events := st.events ++ [⟨EventKind.canceled, tid⟩] } ∧
        lookupTask (cancel st tid alive raises).1.tasks tid =
          some { t with state := TState.canceled }) ∧
      ((t.state = TState.done ∨ t.state = TState.failed ∨ t.state = TState.canceled) →
        cancel st tid alive raises = (st, false))) := by
  constructor
  · intro h
    simp [cancel, h]
  · intro t ht
    refine ⟨?_, ?_, ?_⟩
    · intro hs
      have hc : cancel st tid alive raises =
          ({ st with
              tasks := updTask st.tasks tid (fun u => { u with state := TState.canceled })
              events := st.events ++ [⟨EventKind.canceled, tid⟩] }, true) := by
        simp [cancel, ht, hs]
      refine ⟨hc, ?_⟩
      rw [hc]
      show lookupTask (updTask st.tasks tid (fun u => { u with state := TState.canceled })) tid = _
      rw [lookupTask_updTask st.tasks tid (fun u => { u with state := TState.canceled })
        (fun u => rfl), ht]
      rfl
    · intro hs
      have hc : cancel st tid alive raises =
          ({ st with
              tasks := updTask st.tasks tid (fun u => { u with state := TState.canceled })
              events := st.events ++ [⟨EventKind.canceled, tid⟩] },
            st.handles.contains tid && alive && !raises) := by
        simp [cancel, ht, hs]
      refine ⟨by rw [hc], by rw [hc], ?_⟩
      rw [hc]
      show lookupTask (updTask st.tasks tid (fun u => { u with state := TState.canceled })) tid = _
      rw [lookupTask_updTask st.tasks tid (fun u => { u with state := TState.canceled })
        (fun u => rfl), ht]
      rfl
    · intro hs
      rcases hs with hs | hs | hs <;> simp [cancel, ht, hs]

/-- A queued task used as the concrete cancellation witness. -/
def c7Task : DTask :=
  { id := 1, name := "w", command := "echo hi", est_runtime_sec := none, requires_gpu := false,
    min_vram_mb := 0, max_cpu_pct := 100, max_mem_mb := 0, priority := 5, deadline_ts := none,
    state := TState.queued, created_ts := 0, started_at := none, ended_at := none,
    return_code := none }

/-- A scheduler state holding only `c7Task`, still queued. -/
def c7State : SchedState := ⟨[c7Task], [], [⟨5, 0, 1⟩], []⟩

/-- Witness for C7: cancelling the queued task succeeds and flips it to
`canceled` with a `canceled` event. -/
theorem cancel_state_machine_witness :
    cancel c7State 1 true false =
      ({ c7State with
          tasks := updTask c7State.tasks 1 (fun u => { u with state := TState.canceled })
          events := c7State.events ++ [⟨EventKind.canceled, 1⟩] }, true) :=
  (((cancel_state_machine c7State 1 true false).2 c7Task (by rfl)).1 (by rfl)).1

/-- Claim C8: when admission is denied for the popped queued task, its
priority number is incremented by exactly one (also in the durable
row), it is re-pushed onto the heap still in state `queued`, a
`deferred` audit event is recorded, and the launch loop stops: no
further pops or launch attempts happen in that tick. -/
theorem deferred_task_requeued (st : SchedState) (env : TickEnv) (item : QueueItem)
    (rest : List QueueItem) (t : DTask) (running fuel : Nat)
    (hpop : popMin st.queue = some (item, rest))
    (hlook : lookupTask st.tasks item.task_id = some t)
    (hq : t.state = TState.queued)
    (hdeny : (evaluate env.snapshot (task_as_dict t) env.rules env.now env.vm_total).1 = false)
    (hcap : running < env.max_parallel) :
    maybe_start_next st env =
      ({ st with
          tasks := updTask st.tasks t.id (fun u => { u with priority := u.priority + 1 })
          queue := rest ++ [⟨t.priority + 1, t.created_ts, t.id⟩]
          events := st.events ++ [⟨EventKind.deferred, t.id⟩] }, none) ∧
    lookupTask (maybe_start_next st env).1.tasks t.id =
      some { t with priority := t.priority + 1 } ∧
    ({ t with priority := t.priority + 1 } : DTask).state = TState.queued ∧
    launchLoop env (fuel + 1) st running = (maybe_start_next st env).1 := by
  have hmain : maybe_start_next st env =
      ({ st with
          tasks := updTask st.tasks t.id (fun u => { u with priority := u.priority + 1 })
          queue := rest ++ [⟨t.priority + 1, t.created_ts, t.id⟩]
          events := st.events ++ [⟨EventKind.deferred, t.id⟩] }, none) := by
    simp [maybe_start_next, hpop, hlook, hq, hdeny, push_queue]
  have hid : t.id = item.task_id := lookupTask_id hlook
  refine ⟨hmain, ?_, by simp [hq], ?_⟩
  · rw [hmain]
    show lookupTask (updTask st.tasks t.id (fun u => { u with priority := u.priority + 1 })) t.id = _
    have hlook2 : lookupTask st.tasks t.id = some t := by rw [hid]; exact hlook
    rw [lookupTask_updTask st.tasks t.id (fun u => { u with priority := u.priority + 1 })
      (fun u => rfl), hlook2]
    rfl
  · have hqe : st.queue ≠ [] := by
      intro he
      rw [he] at hpop
      simp [popMin] at hpop
    unfold launchLoop
    rw [if_pos ⟨hcap, hqe⟩, hmain]

/-- A queued task whose own CPU cap (80%) is below the snapshot load. -/
def c8Task : DTask :=
  { id := 1, name := "busy", command := "make", est_runtime_sec := none, requires_gpu := false,
    min_vram_mb := 0, max_cpu_pct := 80, max_mem_mb := 0, priority := 3, deadline_ts := none,
    state := TState.queued, created_ts := 0, started_at := none, ended_at := none,
    return_code := none }

/-- State holding only `c8Task`, queued at priority 3. -/
def c8State : SchedState := ⟨[c8Task], [], [⟨3, 0, 1⟩], []⟩

/-- A tick environment whose snapshot reports 99% CPU against the
`balanced_defaults` rules, so admission is denied on CPU. -/
def c8Env : TickEnv :=
  { snapshot := ⟨some 99, some 0, none, some ⟨some true, some 100⟩⟩
    rules := c4Rules
    now := ⟨12, 0⟩
    vm_total := 2 ^ 33
    poll := fun _ => none
    max_parallel := 2
    time := 0 }

/-- Witness for C8: the denied task is re-queued at priority 4 with a
`deferred` event and the loop stops. -/
theorem deferred_task_requeued_witness :
    maybe_start_next c8State c8Env =
      ({ c8State with
          tasks := updTask c8State.tasks 1 (fun u => { u with priority := u.priority + 1 })
          queue := [⟨4, 0, 1⟩]
          events := [⟨EventKind.deferred, 1⟩] }, none) :=
  (deferred_task_requeued c8State c8Env ⟨3, 0, 1⟩ [] c8Task 0 0 (by rfl) (by rfl) (by rfl)
    (by decide) (by decide)).1

/-- Claim C3 amended: when the popped item's task is missing or no
longer `queued`, the item is discarded (removed from the heap, with no
task mutation and no event) but — contrary to the claim as stated —
the launch phase does not continue popping: `_maybe_start_next`
returns `None` for a discard exactly as for a deferral, and `_tick`
breaks out of the launch loop for that cycle. -/
theorem stale_item_discard_stops_launch (st : SchedState) (env : TickEnv) (item : QueueItem)
    (rest : List QueueItem) (running fuel : Nat)
    (hpop : popMin st.queue = some (item, rest))
    (hstale : lookupTask st.tasks item.task_id = none ∨
      ∃ t, lookupTask st.tasks item.task_id = some t ∧ t.state ≠ TState.queued)
    (hcap : running < env.max_parallel) :
    maybe_start_next st env = ({ st with queue := rest }, none) ∧
    launchLoop env (fuel + 1) st running = { st with queue := rest } := by
  have hmain : maybe_start_next st env = ({ st with queue := rest }, none) := by
    rcases hstale with h | ⟨t, h, hne⟩
    · simp [maybe_start_next, hpop, h]
    · simp [maybe_start_next, hpop, h, hne]
  have hqe : st.queue ≠ [] := by
    intro he
    rw [he] at hpop
    simp [popMin] at hpop
  refine ⟨hmain, ?_⟩
  unfold launchLoop
  rw [if_pos ⟨hcap, hqe⟩, hmain]

/-- A canceled task whose stale item is still at the heap top. -/
def c3TaskA : DTask :=
  { id := 1, name := "a", command := "sleep 1", est_runtime_sec := none, requires_gpu := false,
    min_vram_mb := 0, max_cpu_pct := 100, max_mem_mb := 0, priority := 1, deadline_ts := none,
    state := TState.canceled, created_ts := 0, started_at := none, ended_at := none,
    return_code := none }

/-- A second task, queued, fully admissible, behind the stale item. -/
def c3TaskB : DTask :=
  { id := 2, name := "b", command := "sleep 1", est_runtime_sec := none, requires_gpu := false,
    min_vram_mb := 0, max_cpu_pct := 100, max_mem_mb := 0, priority := 2, deadline_ts := none,
    state := TState.queued, created_ts := 0, started_at := none, ended_at := none,
    return_code := none }

/-- Heap `[stale item for task 1, live item for task 2]`, no handles. -/
def c3State : SchedState := ⟨[c3TaskA, c3TaskB], [], [⟨1, 0, 1⟩, ⟨2, 0, 2⟩], []⟩

/-- An idle environment with permissive (all-default) rules and spare
parallel capacity, under which task 2 would be admitted. -/
def c3Env : TickEnv :=
  { snapshot := ⟨some 0, some 0, none, some ⟨some true, some 100⟩⟩
    rules := ⟨none, none, none, none, none⟩
    now := ⟨12, 0⟩
    vm_total := 2 ^ 30
    poll := fun _ => none
    max_parallel := 2
    time := 0 }

/-- Counterexample to claim C3 as stated: after the stale item for the
canceled task 1 is popped and discarded, the launch loop does NOT
continue popping — task 2, although admissible (`evaluate` allows it)
with capacity free, is neither started nor even popped in that tick:
the whole tick only removes the stale item. -/
theorem stale_item_not_skipped_counterexample :
    evaluate c3Env.snapshot (task_as_dict c3TaskB) c3Env.rules c3Env.now c3Env.vm_total =
      (true, []) ∧
    tick c3State c3Env = { c3State with queue := [⟨2, 0, 2⟩] } ∧
    (lookupTask (tick c3State c3Env).tasks 2).map DTask.state = some TState.queued ∧
    (tick c3State c3Env).events = [] := by
  refine ⟨by decide, by decide, by decide, by decide⟩

/-- Witness for the amended C3: discarding the stale item for task 1
removes it and stops the launch phase. -/
theorem stale_item_discard_stops_launch_witness :
    maybe_start_next c3State c3Env = ({ c3State with queue := [⟨2, 0, 2⟩] }, none) :=
  (stale_item_discard_stops_launch c3State c3Env ⟨1, 0, 1⟩ [⟨2, 0, 2⟩] 0 0 (by rfl)
    (Or.inr ⟨c3TaskA, by rfl, by decide⟩) (by decide)).1

/-- An enqueue payload whose command string is empty. -/
def c2Payload : EnqueuePayload :=
  { name := some "t", command := "", est_runtime_sec := none, requires_gpu := none,
    min_vram_mb := none, max_cpu_pct := none, max_mem_mb := none, priority := none,
    deadline_ts := none }

/-- The empty scheduler state. -/
def c2State : SchedState := ⟨[], [], [], []⟩

/-- Counterexample to claim C2 as stated: `enqueue` has no validation
branch at all — an empty command string is accepted: the task IS
persisted in state `queued`, IS pushed onto the heap, and DOES get an
`enqueued` audit event. -/
theorem enqueue_accepts_empty_command :
    (enqueue c2State c2Payload 1 0).1.tasks.map (fun t => (t.command, t.state)) =
      [("", TState.queued)] ∧
    (enqueue c2State c2Payload 1 0).1.queue = [⟨5, 0, 1⟩] ∧
    (enqueue c2State c2Payload 1 0).1.events = [⟨EventKind.enqueued, 1⟩] := by
  refine ⟨rfl, rfl, rfl⟩

/-- Claim C2 amended: `enqueue` performs no validation of the command
string; every payload — the empty command included — yields a task
persisted in state `queued` with exactly the payload's command, a push
onto the heap, and an `enqueued` audit event; no synchronous error
path exists. -/
theorem enqueue_persists_any_command (st : SchedState) (p : EnqueuePayload)
    (newId : Nat) (created_ts : Int) :
    (enqueue st p newId created_ts).1.tasks =
      st.tasks ++ [(enqueue st p newId created_ts).2] ∧
    (enqueue st p newId created_ts).2.command = p.command ∧
    (enqueue st p newId created_ts).2.state = TState.queued ∧
    (enqueue st p newId created_ts).2.id = newId ∧
    (enqueue st p newId created_ts).1.queue =
      st.queue ++ [⟨(enqueue st p newId created_ts).2.priority, created_ts, newId⟩] ∧
    (enqueue st p newId created_ts).1.events =
      st.events ++ [⟨EventKind.enqueued, newId⟩] ∧
    (enqueue st p newId created_ts).1.handles = st.handles := by
  refine ⟨rfl, rfl, rfl, rfl, rfl, rfl, rfl⟩

/-- A task currently running, with its live handle tracked. -/
def c1Task : DTask :=
  { id := 1, name := "r", command := "sleep 5", est_runtime_sec := none, requires_gpu := false,
    min_vram_mb := 0, max_cpu_pct := 100, max_mem_mb := 0, priority := 5, deadline_ts := none,
    state := TState.running, created_ts := 0, started_at := some 0, ended_at := none,
    return_code := none }

/-- Scheduler state: the running task and its handle, empty heap. -/
def c1State : SchedState := ⟨[c1Task], [], [], [1]⟩

/-- An environment in which task 1's process has exited with code 0. -/
def c1Env : TickEnv :=
  { snapshot := ⟨some 0, some 0, none, none⟩
    rules := ⟨none, none, none, none, none⟩
    now := ⟨12, 0⟩
    vm_total := 0
    poll := fun tid => if tid == 1 then some 0 else none
    max_parallel := 2
    time := 9 }

/-- Claim C1 is violated by the code (code bug): `cancel` on the
running task moves it to the terminal state `canceled` (and leaves its
handle tracked), but the next tick's reap phase — which updates any
tracked task whose process has exited without checking the task's
current state — overwrites the terminal `canceled` with `done` and
records a `finished` event. -/
theorem reap_overwrites_canceled_task :
    (cancel c1State 1 true false).2 = true ∧
    (cancel c1State 1 true false).1.tasks.map DTask.state = [TState.canceled] ∧
    (cancel c1State 1 true false).1.handles = [1] ∧
    (tick (cancel c1State 1 true false).1 c1Env).tasks.map DTask.state = [TState.done] ∧
    ⟨EventKind.finished, 1⟩ ∈ (tick (cancel c1State 1 true false).1 c1Env).events := by
  refine ⟨by decide, by decide, by decide, by decide, by decide⟩

end EdgePilot
